import Mathlib

/-!
Shallow embedding of the sanview storage-topology correlation engine.

Sources embedded here:
- `src/domain/device.rs` (data model),
- `src/domain/topology.rs` (`TopologyCorrelator::correlate`, `deduplicate_by_wwn`),
- `src/collectors/geom.rs` (`GeomCollector::collect` / `compute_statistics`),
- `src/collectors/multipath.rs` (`parse_gmultipath_output`),
- `src/collectors/ses.rs` (`SesCollector::collect` / `scan_enclosure`),
- `src/ui/state.rs` (`AppState::update_topology`),
- `src/main.rs` (the per-tick collection flow).

Rust `f64` statistics values are modelled as `ℚ` (the claims under study only
copy, sum and compare them; no floating-point rounding is exercised).
Rust `HashMap` values are modelled as association lists; where the source
iterates a `HashMap` (unspecified order) the embedding iterates the list, and
the theorems quantify over that order.
`std::time::Instant` is modelled as `Nat`.
-/

namespace Sanview

/-- Embedding of `DiskStatistics` from `src/domain/device.rs`. -/
structure DiskStatistics where
  read_iops : ℚ
  write_iops : ℚ
  read_bw_mbps : ℚ
  write_bw_mbps : ℚ
  read_latency_ms : ℚ
  write_latency_ms : ℚ
  queue_depth : ℚ
  busy_pct : ℚ
  timestamp : Option Nat
  deriving DecidableEq, Repr

/-- Rust `DiskStatistics::default()`: all rate fields zero, no timestamp. -/
instance : Inhabited DiskStatistics :=
  ⟨{ read_iops := 0, write_iops := 0, read_bw_mbps := 0, write_bw_mbps := 0,
     read_latency_ms := 0, write_latency_ms := 0, queue_depth := 0,
     busy_pct := 0, timestamp := none }⟩

/-- Embedding of `PathState` from `src/domain/device.rs`. -/
inductive PathState where
  | Active | Passive | Failed | Unknown
  deriving DecidableEq, Repr

/-- Embedding of `MultipathState` from `src/domain/device.rs`. -/
inductive MultipathState where
  | Optimal | Degraded | Failed | Unknown
  deriving DecidableEq, Repr

/-- Embedding of `ZfsRole` from `src/collectors/zfs.rs`. -/
inductive ZfsRole where
  | Data | Slog | Cache | Spare
  deriving DecidableEq, Repr

/-- Embedding of `ZfsDriveInfo` from `src/collectors/zfs.rs`. -/
structure ZfsDriveInfo where
  pool : String
  vdev : String
  role : ZfsRole
  state : String
  deriving DecidableEq, Repr

/-- Embedding of `PhysicalDisk` from `src/domain/device.rs`. -/
structure PhysicalDisk where
  device_name : String
  rank : Option Nat
  ident : Option String
  multipath_parent : Option String
  slot : Option Nat
  enclosure : Option String
  statistics : DiskStatistics
  path_state : PathState
  deriving DecidableEq, Repr

instance : Inhabited PhysicalDisk :=
  ⟨{ device_name := "", rank := none, ident := none, multipath_parent := none,
     slot := none, enclosure := none, statistics := default,
     path_state := PathState.Unknown }⟩

/-- Embedding of `PathInfo` from `src/collectors/multipath.rs`. -/
structure PathInfo where
  device_name : String
  is_active : Bool
  deriving DecidableEq, Repr

/-- Embedding of `MultipathInfo` from `src/collectors/multipath.rs`. -/
structure MultipathInfo where
  name : String
  serial : String
  state : MultipathState
  paths : List PathInfo
  deriving DecidableEq, Repr

/-- Embedding of `SesSlotInfo` from `src/collectors/ses.rs`. -/
structure SesSlotInfo where
  slot : Nat
  device_name : String
  enclosure : String
  deriving DecidableEq, Repr

/-- Embedding of `MultipathDevice` from `src/domain/device.rs`, with exactly
the fields `TopologyCorrelator::correlate` populates. -/
structure MultipathDevice where
  name : String
  ident : Option String
  state : MultipathState
  paths : List String
  active_path : Option String
  statistics : DiskStatistics
  zfs_info : Option ZfsDriveInfo
  slot : Option Nat
  deriving DecidableEq, Repr

/-! Association lists standing for Rust `HashMap<String, _>`. -/

/-- Lookup standing for `HashMap::get`. -/
def alLookup {α : Type} : List (String × α) → String → Option α
  | [], _ => none
  | (k, v) :: rest, key => if k = key then some v else alLookup rest key

/-- Insertion standing for `HashMap::insert` (replaces an existing binding). -/
def alInsert {α : Type} : List (String × α) → String → α → List (String × α)
  | [], key, val => [(key, val)]
  | (k, v) :: rest, key, val =>
      if k = key then (key, val) :: rest else (k, v) :: alInsert rest key val

/-- Insertion standing for `HashMap::entry(..).or_insert(..)`: keeps the
existing binding if one is present. -/
def alInsertIfAbsent {α : Type} (m : List (String × α)) (key : String) (val : α) :
    List (String × α) :=
  match alLookup m key with
  | some _ => m
  | none => m ++ [(key, val)]

/-- Removal standing for `HashMap::remove` (drops the first binding). -/
def alRemove {α : Type} : List (String × α) → String → List (String × α)
  | [], _ => []
  | (k, v) :: rest, key => if k = key then rest else (k, v) :: alRemove rest key

/-! Character-level models of the Rust string primitives the collectors use
(`str::starts_with`, `str::trim`, `str::find`), over a string's character
list. -/

/-- Whether `pat` is an initial segment of `s` (Rust `str::starts_with`). -/
def leadsWith : List Char → List Char → Bool
  | [], _ => true
  | _ :: _, [] => false
  | a :: as, b :: bs => a = b && leadsWith as bs

/-- String-level wrapper for `leadsWith`. -/
def strStarts (s pat : String) : Bool := leadsWith pat.data s.data

/-- The whitespace characters relevant to the reports under study (Rust
`str::trim` strips Unicode whitespace; the reports only contain these). -/
def isWsChar (c : Char) : Bool := c = ' ' || c = '\t' || c = '\n' || c = '\r'

/-- Leading- and trailing-whitespace removal (Rust `str::trim`). -/
def trimChars (cs : List Char) : List Char :=
  ((cs.dropWhile isWsChar).reverse.dropWhile isWsChar).reverse

/-- The suffix after the first occurrence of `pat`, if `pat` occurs (Rust
`str::find` followed by slicing past the match). -/
def findSub (pat : List Char) : List Char → Option (List Char)
  | [] => none
  | c :: rest =>
      if leadsWith pat (c :: rest) then some ((c :: rest).drop pat.length)
      else findSub pat rest

/-! Embedding of `TopologyCorrelator` (`src/domain/topology.rs`). -/

/-- One step of the disk-map construction at the head of `correlate`: attach
SES slot/enclosure data where available, then index the disk by name. -/
def buildDiskStep (ses_info : List (String × SesSlotInfo))
    (m : List (String × PhysicalDisk)) (d : PhysicalDisk) :
    List (String × PhysicalDisk) :=
  let d' :=
    match alLookup ses_info d.device_name with
    | some ses_slot =>
        { d with slot := some ses_slot.slot, enclosure := some ses_slot.enclosure }
    | none => d
  alInsert m d'.device_name d'

/-- Disk-map construction from the head of `correlate`: index the physical
disks by name and attach SES slot/enclosure data where available. -/
def buildDiskMap (ses_info : List (String × SesSlotInfo))
    (physical_disks : List PhysicalDisk) : List (String × PhysicalDisk) :=
  physical_disks.foldl (buildDiskStep ses_info) []

/-- One iteration of the path-collection loop inside `correlate`:
`if let Some(disk) = disk_map.remove(&path_info.device_name) { ... }`. -/
def collectPathStep
    (acc : List PhysicalDisk × Option String × List (String × PhysicalDisk))
    (path_info : PathInfo) :
    List PhysicalDisk × Option String × List (String × PhysicalDisk) :=
  let (path_disks, active_path, dm) := acc
  match alLookup dm path_info.device_name with
  | some disk =>
      (path_disks ++ [disk],
       if path_info.is_active then some path_info.device_name else active_path,
       alRemove dm path_info.device_name)
  | none => acc

/-- Body of the `for (mp_name, mp_info) in multipath_info` loop in
`correlate`: builds one `MultipathDevice` and returns the shrunken disk map. -/
def processGroup (ses_info : List (String × SesSlotInfo))
    (zfs_info : List (String × ZfsDriveInfo))
    (disk_map : List (String × PhysicalDisk))
    (mp_name : String) (mp_info : MultipathInfo) :
    MultipathDevice × List (String × PhysicalDisk) :=
  let r := mp_info.paths.foldl collectPathStep ([], none, disk_map)
  let path_disks := r.1
  let active_path := r.2.1
  let dm := r.2.2
  let stats :=
    if path_disks = [] then default
    else
      match active_path with
      | some active =>
          ((path_disks.find? (fun d => d.device_name = active)).map
            (·.statistics)).getD default
      | none => (path_disks.head?.map (·.statistics)).getD default
  let paths := path_disks.map (·.device_name)
  let ident := some mp_info.serial
  let path_disks := path_disks.map (fun d => { d with ident := ident })
  let slot0 := (path_disks.filterMap (·.slot)).min?
  let slot :=
    match slot0 with
    | some s => some s
    | none =>
        (mp_info.paths.filterMap
          (fun p => (alLookup ses_info p.device_name).map (·.slot))).min?
  let zfs := alLookup zfs_info mp_name
  ({ name := mp_name, ident := ident, state := mp_info.state, paths := paths,
     active_path := active_path, statistics := stats, zfs_info := zfs,
     slot := slot }, dm)

/-- The multipath-processing loop of `correlate`, iterated over the map in
its (unspecified, here list-given) iteration order. -/
def correlateLoop (ses_info : List (String × SesSlotInfo))
    (zfs_info : List (String × ZfsDriveInfo)) :
    List (String × MultipathInfo) → List (String × PhysicalDisk) →
    List MultipathDevice × List (String × PhysicalDisk)
  | [], dm => ([], dm)
  | (mp_name, mp_info) :: rest, dm =>
      let r := processGroup ses_info zfs_info dm mp_name mp_info
      let rec' := correlateLoop ses_info zfs_info rest r.2
      (r.1 :: rec'.1, rec'.2)

/-- The comparator passed to `multipath_devices.sort_by` in `correlate`. -/
def mdCompare (a b : MultipathDevice) : Ordering :=
  match a.slot, b.slot with
  | some slot_a, some slot_b =>
      if slot_a < slot_b then .lt else if slot_a = slot_b then .eq else .gt
  | some _, none => .lt
  | none, some _ => .gt
  | none, none =>
      if a.name < b.name then .lt else if a.name = b.name then .eq else .gt

/-- Stable ordered insertion: the element is placed before the first entry
that compares greater-or-equal, mirroring a stable sort's tie behaviour. -/
def insertCmp {α : Type} (cmp : α → α → Ordering) (x : α) :
    List α → List α
  | [] => [x]
  | y :: ys =>
      if cmp x y = .gt then y :: insertCmp cmp x ys else x :: y :: ys

/-- Stable insertion sort standing for Rust's stable `Vec::sort_by`. -/
def sortByCmp {α : Type} (cmp : α → α → Ordering) : List α → List α
  | [] => []
  | x :: xs => insertCmp cmp x (sortByCmp cmp xs)

/-- One iteration of the grouping loop of `deduplicate_by_wwn`: a disk with
an identifier is appended to its identifier group, a disk without one goes to
the as-is list. -/
def dedupGroupStep
    (acc : List (String × List PhysicalDisk) × List PhysicalDisk)
    (kv : String × PhysicalDisk) :
    List (String × List PhysicalDisk) × List PhysicalDisk :=
  let disk := kv.2
  match disk.ident with
  | some ident =>
      (match alLookup acc.1 ident with
       | some g => alInsert acc.1 ident (g ++ [disk])
       | none => alInsert acc.1 ident [disk],
       acc.2)
  | none => (acc.1, acc.2 ++ [disk])

/-- The representative-collection loop of `deduplicate_by_wwn`:
`disks.remove(0)` keeps each group's first-encountered disk. -/
def dedupHeads (ident_groups : List (String × List PhysicalDisk)) :
    List PhysicalDisk :=
  ident_groups.foldl (fun r g => r ++ [g.2.headI]) []

/-- Embedding of `TopologyCorrelator::deduplicate_by_wwn`
(`src/domain/topology.rs`): group by identifier, keep the first disk of each
group, append the identifier-less disks unchanged. -/
def deduplicate_by_wwn (disk_map : List (String × PhysicalDisk)) :
    List PhysicalDisk :=
  let grouped := disk_map.foldl dedupGroupStep ([], [])
  dedupHeads grouped.1 ++ grouped.2

/-- Embedding of `TopologyCorrelator::correlate` (`src/domain/topology.rs`). -/
def correlate (physical_disks : List PhysicalDisk)
    (multipath_info : List (String × MultipathInfo))
    (ses_info : List (String × SesSlotInfo))
    (zfs_info : List (String × ZfsDriveInfo)) :
    List MultipathDevice × List PhysicalDisk :=
  let disk_map := buildDiskMap ses_info physical_disks
  let r := correlateLoop ses_info zfs_info multipath_info disk_map
  let multipath_devices := sortByCmp mdCompare r.1
  let standalone_disks := deduplicate_by_wwn r.2
  (multipath_devices, standalone_disks)

/-! Embedding of `GeomCollector` (`src/collectors/geom.rs`). The raw
`devstat` records and the `Statistics::compute` rate arithmetic belong to the
external `freebsd_libgeom` crate (a black-box counter source per the spec),
so the per-device payload is abstract data and the rate computation is a
parameter; the control flow of `collect`/`compute_statistics` is embedded
exactly. -/

/-- A raw per-device counter record from the external counter source. -/
structure DevStat where
  id : Nat
  raw : List ℚ
  deriving DecidableEq, Repr

/-- A raw snapshot: capture timestamp plus one record per live device. -/
structure GeomSnapshot where
  timestamp : Int
  devices : List DevStat
  deriving DecidableEq, Repr

/-- A GEOM tree node as seen through `tree.lookup`: its name (none models a
failing `gident.name()`) and its topological rank. -/
structure GIdent where
  name : Option String
  rank : Option Nat
  deriving DecidableEq, Repr

/-- Embedding of `is_physical_disk` (`src/collectors/geom.rs`). -/
def is_physical_disk (name : String) : Bool :=
  strStarts name "da" || strStarts name "nda" || strStarts name "multipath/"

/-- The two `continue` filters of the `compute_statistics` device loop: the
device is kept when its name passes `is_physical_disk` and its rank, when
known, is not a derived rank (> 1) — unless the name is a multipath name. -/
def keepDevice (device_name : String) (rank : Option Nat) : Bool :=
  if !is_physical_disk device_name then false
  else
    match rank with
    | some r => if r > 1 && !strStarts device_name "multipath/" then false else true
    | none => true

/-- Pairing of devices common to both snapshots, as `iter_pair` yields them:
each current record joined with the previous record of the same id. -/
def iterPair (current prev : GeomSnapshot) : List (DevStat × DevStat) :=
  current.devices.filterMap
    (fun c => (prev.devices.find? (fun p => p.id = c.id)).map (fun p => (c, p)))

/-- State of `GeomCollector`: the retained previous snapshot. -/
structure GeomState where
  previous_snapshot : Option GeomSnapshot
  deriving DecidableEq, Repr

/-- Embedding of `GeomCollector::compute_statistics`: no baseline or a
non-positive elapsed time yields no statistics; otherwise each common device
passing the filters becomes a `PhysicalDisk` with computed rates. `tree`
stands for `self.tree.lookup` and `statCompute` for `Statistics::compute`. -/
def compute_statistics (tree : Nat → Option GIdent)
    (statCompute : DevStat → DevStat → Int → DiskStatistics)
    (st : GeomState) (current : GeomSnapshot) : List PhysicalDisk :=
  match st.previous_snapshot with
  | none => []
  | some prev =>
      let etime : Int := current.timestamp - prev.timestamp
      if etime ≤ 0 then []
      else
        (iterPair current prev).filterMap
          (fun cp =>
            match tree cp.1.id with
            | none => none
            | some gident =>
                match gident.name with
                | none => none
                | some device_name =>
                    if keepDevice device_name gident.rank then
                      some { device_name := device_name, rank := gident.rank,
                             ident := none, multipath_parent := none,
                             slot := none, enclosure := none,
                             statistics := statCompute cp.1 cp.2 etime,
                             path_state := PathState.Unknown }
                    else none)

/-- Embedding of `GeomCollector::collect`: compute the statistics, then
unconditionally store the new snapshot as the previous one. -/
def geomCollect (tree : Nat → Option GIdent)
    (statCompute : DevStat → DevStat → Int → DiskStatistics)
    (st : GeomState) (current : GeomSnapshot) :
    List PhysicalDisk × GeomState :=
  (compute_statistics tree statCompute st current, ⟨some current⟩)

/-! Embedding of `MultipathCollector::parse_gmultipath_output`
(`src/collectors/multipath.rs`): a line-oriented state machine over the
`gmultipath list` report, taken here as its list of lines. -/

/-- Mutable state of the parsing loop in `parse_gmultipath_output`. -/
structure MpParseState where
  devices : List (String × MultipathInfo)
  current_geom : Option String
  current_state : MultipathState
  current_paths : List PathInfo
  in_consumers : Bool
  current_consumer_name : Option String
  current_consumer_active : Bool
  deriving Repr

/-- Initial state of the parsing loop. -/
def mpInit : MpParseState :=
  { devices := [], current_geom := none, current_state := MultipathState.Unknown,
    current_paths := [], in_consumers := false, current_consumer_name := none,
    current_consumer_active := false }

/-- Flush of the in-progress geom (used both on a new `Geom name:` header and
at end of input): when a geom is open, a pending consumer is appended and the
geom is inserted into the result map keyed `multipath/<name>`. -/
def mpFlush (st : MpParseState) : MpParseState :=
  match st.current_geom with
  | none => st
  | some geom_name =>
      let paths :=
        match st.current_consumer_name with
        | some consumer_name =>
            st.current_paths ++ [PathInfo.mk consumer_name st.current_consumer_active]
        | none => st.current_paths
      let mp_name := "multipath/" ++ geom_name
      { st with
        devices := alInsert st.devices mp_name
          { name := mp_name, serial := geom_name, state := st.current_state,
            paths := paths },
        current_geom := none,
        current_paths := [],
        current_consumer_name := none }

/-- Parse of a `State:` value into a `MultipathState`. -/
def mpStateOf (s : String) : MultipathState :=
  if s = "OPTIMAL" then MultipathState.Optimal
  else if s = "DEGRADED" then MultipathState.Degraded
  else if s = "FAILED" then MultipathState.Failed
  else MultipathState.Unknown

/-- One iteration of the line loop of `parse_gmultipath_output`. -/
def mpProcessLine (st : MpParseState) (line : String) : MpParseState :=
  let trimmed := trimChars line.data
  if leadsWith "Geom name: ".data trimmed then
    let name := String.mk (trimmed.drop 11)
    let st := mpFlush st
    { st with current_geom := some name,
              current_state := MultipathState.Unknown,
              in_consumers := false,
              current_consumer_name := none }
  else if leadsWith "State: ".data trimmed then
    let state_str := String.mk (trimmed.drop 7)
    if !st.in_consumers then
      { st with current_state := mpStateOf state_str }
    else
      match st.current_consumer_name with
      | some name =>
          let active := state_str = "ACTIVE"
          { st with
            current_consumer_active := active,
            current_paths := st.current_paths ++ [PathInfo.mk name active],
            current_consumer_name := none }
      | none => st
  else if trimmed = "Consumers:".data then
    { st with in_consumers := true }
  else if trimmed = "Providers:".data then
    { st with in_consumers := false }
  else if st.in_consumers then
    match findSub "Name: ".data trimmed with
    | some restChars =>
        let name := String.mk restChars
        let st :=
          match st.current_consumer_name with
          | some prev_name =>
              { st with current_paths :=
                  st.current_paths ++ [PathInfo.mk prev_name st.current_consumer_active] }
          | none => st
        { st with current_consumer_name := some name,
                  current_consumer_active := false }
    | none => st
  else st

/-- Embedding of `parse_gmultipath_output`, over the report's lines. -/
def parse_gmultipath_output (lines : List String) :
    List (String × MultipathInfo) :=
  (mpFlush (lines.foldl mpProcessLine mpInit)).devices

/-! Embedding of `SesCollector` (`src/collectors/ses.rs`). The ioctls are the
external enclosure-service interface; an enclosure scan is given here by its
element table (index, type, associated device names), and a failing scan by
an error value. -/

/-- Element type constant `ELMTYP_DEVICE` (device slot). -/
def ELMTYP_DEVICE : Nat := 0x01

/-- Element type constant `ELMTYP_ARRAY_DEV` (array device slot). -/
def ELMTYP_ARRAY_DEV : Nat := 0x17

/-- One enclosure element as returned by the element-map and device-name
ioctls: its index, its type, and its associated device names. -/
structure SesElement where
  elm_idx : Nat
  elm_type : Nat
  devnames : List String
  deriving DecidableEq, Repr

/-- Embedding of `SesCollector::scan_enclosure`: device-slot and
array-device-slot elements contribute `(device_name, slot)` entries, the
element index serving as the slot number; only `da*`/`nda*` names are kept. -/
def scan_enclosure (dev_path : String) (elements : List SesElement) :
    List (String × SesSlotInfo) :=
  let enc_name := if strStarts dev_path "/dev/" then dev_path.drop 5 else dev_path
  elements.foldl
    (fun mappings element =>
      if element.elm_type ≠ ELMTYP_DEVICE && element.elm_type ≠ ELMTYP_ARRAY_DEV
      then mappings
      else
        element.devnames.foldl
          (fun m dev_name =>
            if strStarts dev_name "da" || strStarts dev_name "nda" then
              alInsert m dev_name
                { slot := element.elm_idx, device_name := dev_name,
                  enclosure := enc_name }
            else m)
          mappings)
    []

/-- First-wins merge of one enclosure's scanned mappings into the running
slot map (`slot_map.entry(device_name).or_insert(slot_info)`). -/
def sesInsertAll (slot_map : List (String × SesSlotInfo))
    (mappings : List (String × SesSlotInfo)) : List (String × SesSlotInfo) :=
  mappings.foldl (fun m kv => alInsertIfAbsent m kv.1 kv.2) slot_map

/-- One iteration of the enclosure loop of `SesCollector::collect`: a failing
scan is logged and skipped; a successful one is merged first-wins. -/
def sesStep (slot_map : List (String × SesSlotInfo))
    (enc : String × Except String (List SesElement)) :
    List (String × SesSlotInfo) :=
  match enc.2 with
  | .ok elements => sesInsertAll slot_map (scan_enclosure enc.1 elements)
  | .error _ => slot_map

/-- Embedding of `SesCollector::collect`: scan every enclosure in order; the
first enclosure to report a device name wins. -/
def sesCollect
    (enclosures : List (String × Except String (List SesElement))) :
    List (String × SesSlotInfo) :=
  enclosures.foldl sesStep []

/-! Embedding of the per-tick collection flow of `main` (`src/main.rs`,
fast-refresh branch): each collector's outcome is given as an `Except`; a
failing GEOM or multipath collection `continue`s the loop (the tick produces
no correlation), a failing ZFS collection is replaced by an empty map, and
the SES mapping was collected once before the loop with an empty-map
fallback. -/

/-- Embedding of the startup SES collection fallback in `main`. -/
def sesStartup (res : Except String (List (String × SesSlotInfo))) :
    List (String × SesSlotInfo) :=
  match res with
  | .ok info => info
  | .error _ => []

/-- Embedding of one fast-refresh tick of `main`: `none` models the `continue`
branches (the tick is skipped before reaching the correlator). -/
def tick (geomRes : Except String (List PhysicalDisk))
    (mpRes : Except String (List (String × MultipathInfo)))
    (zfsRes : Except String (List (String × ZfsDriveInfo)))
    (ses_info : List (String × SesSlotInfo)) :
    Option (List MultipathDevice × List PhysicalDisk) :=
  match geomRes with
  | .error _ => none
  | .ok physical_disks =>
      match mpRes with
      | .error _ => none
      | .ok multipath_info =>
          let zfs_info :=
            match zfsRes with
            | .ok info => info
            | .error _ => []
          some (correlate physical_disks multipath_info ses_info zfs_info)

/-! Embedding of `AppState::update_topology` (`src/ui/state.rs`). Only the
fields that `update_topology` reads or writes are carried; the system-stats
fields updated by the separate `update_system_stats` are not involved in the
claims and are omitted. History buffers (`VecDeque<f64>`) are lists of `ℚ`
with front - oldest. -/

/-- The topology-facing portion of `AppState` (`src/ui/state.rs`). -/
structure AppState where
  multipath_devices : List MultipathDevice
  standalone_disks : List PhysicalDisk
  last_update : Nat
  history_size : Nat
  storage_read_iops_history : List ℚ
  storage_write_iops_history : List ℚ
  storage_read_bw_history : List ℚ
  storage_write_bw_history : List ℚ
  storage_read_latency_history : List ℚ
  storage_write_latency_history : List ℚ
  storage_queue_depth_history : List ℚ
  storage_busy_history : List ℚ
  drive_busy_history : List (String × List ℚ)
  deriving Repr

/-- Embedding of `AppState::trim_history`: pop from the front while the
length exceeds the bound — equivalently, drop the excess front elements. -/
def trim_history (history : List ℚ) (max_size : Nat) : List ℚ :=
  history.drop (history.length - max_size)

/-- One iteration of the per-drive busy-history loop of `update_topology`:
fetch the device's buffer (pre-filled with zeros on first appearance), append
the current busy percentage and trim. -/
def drive_history_step (history_size : Nat) (m : List (String × List ℚ))
    (device : MultipathDevice) : List (String × List ℚ) :=
  let history :=
    match alLookup m device.name with
    | some h => h
    | none => List.replicate history_size 0
  alInsert m device.name
    (trim_history (history ++ [device.statistics.busy_pct]) history_size)

/-- Embedding of `AppState::update_topology`: recompute the aggregate storage
series, append-and-trim each buffer, give every current multipath device a
busy-percentage history buffer (pre-filled with zeros on first appearance),
prune buffers of departed devices, and install the new device lists. `now`
stands for the `Instant::now()` stamped into `last_update`. -/
def update_topology (st : AppState) (multipath_devices : List MultipathDevice)
    (standalone_disks : List PhysicalDisk) (now : Nat) : AppState :=
  let history_size := st.history_size
  let total_read_iops : ℚ := (multipath_devices.map (·.statistics.read_iops)).sum
  let total_write_iops : ℚ := (multipath_devices.map (·.statistics.write_iops)).sum
  let total_read_bw : ℚ := (multipath_devices.map (·.statistics.read_bw_mbps)).sum
  let total_write_bw : ℚ := (multipath_devices.map (·.statistics.write_bw_mbps)).sum
  let avgs :=
    if multipath_devices ≠ [] then
      let active_read := multipath_devices.filter (fun d => d.statistics.read_iops > 1/10)
      let active_write := multipath_devices.filter (fun d => d.statistics.write_iops > 1/10)
      let read_lat : ℚ :=
        if active_read ≠ [] then
          (active_read.map (·.statistics.read_latency_ms)).sum / active_read.length
        else 0
      let write_lat : ℚ :=
        if active_write ≠ [] then
          (active_write.map (·.statistics.write_latency_ms)).sum / active_write.length
        else 0
      (read_lat, write_lat)
    else (0, 0)
  let avg_read_latency := avgs.1
  let avg_write_latency := avgs.2
  let total_queue_depth : ℚ := (multipath_devices.map (·.statistics.queue_depth)).sum
  let avg_busy : ℚ :=
    if multipath_devices ≠ [] then
      (multipath_devices.map (·.statistics.busy_pct)).sum / multipath_devices.length
    else 0
  let dbh :=
    multipath_devices.foldl (drive_history_step history_size)
      st.drive_busy_history
  let dbh := dbh.filter (fun kv => multipath_devices.any (fun d => d.name = kv.1))
  { st with
    storage_read_iops_history :=
      trim_history (st.storage_read_iops_history ++ [total_read_iops]) history_size,
    storage_write_iops_history :=
      trim_history (st.storage_write_iops_history ++ [total_write_iops]) history_size,
    storage_read_bw_history :=
      trim_history (st.storage_read_bw_history ++ [total_read_bw]) history_size,
    storage_write_bw_history :=
      trim_history (st.storage_write_bw_history ++ [total_write_bw]) history_size,
    storage_read_latency_history :=
      trim_history (st.storage_read_latency_history ++ [avg_read_latency]) history_size,
    storage_write_latency_history :=
      trim_history (st.storage_write_latency_history ++ [avg_write_latency]) history_size,
    storage_queue_depth_history :=
      trim_history (st.storage_queue_depth_history ++ [total_queue_depth]) history_size,
    storage_busy_history :=
      trim_history (st.storage_busy_history ++ [avg_busy]) history_size,
    drive_busy_history := dbh,
    multipath_devices := multipath_devices,
    standalone_disks := standalone_disks,
    last_update := now }

/-! Spec-side relations and conditions, written from the specification's
words, for comparison against the embedded code. -/

/-- The ordering the spec ascribes to the sorted multipath list: groups with
a known slot first, ascending by slot; groups without a slot after, ordered
by name. `mdBefore a b` says `a` may precede `b`. -/
def mdBefore (a b : MultipathDevice) : Prop :=
  match a.slot, b.slot with
  | some slot_a, some slot_b => slot_a ≤ slot_b
  | some _, none => True
  | none, some _ => False
  | none, none => a.name ≤ b.name

/-- The keep-condition claimed for the per-device filter: rank 1, or a name
matching the array's physical-disk naming convention (`da*`/`nda*`), or a
synthetic redundant-group (`multipath/`) name. Written from the claim's
words, to be compared with `keepDevice`. -/
def claimKeepCond (device_name : String) (rank : Option Nat) : Bool :=
  rank = some 1 || (strStarts device_name "da" || strStarts device_name "nda")
    || strStarts device_name "multipath/"

/-! Concrete inputs used by the scenario parts of the claims. -/

/-- The all-zero statistics value. -/
def zeroStats : DiskStatistics := default

/-- Statistics of the scenario disk `da0`: read IOPS 120. -/
def da0stats : DiskStatistics := { zeroStats with read_iops := 120 }

/-- Scenario disk `da0` (active path, read IOPS 120). -/
def da0 : PhysicalDisk :=
  { device_name := "da0", rank := some 1, ident := none,
    multipath_parent := none, slot := none, enclosure := none,
    statistics := da0stats, path_state := PathState.Unknown }

/-- Scenario disk `da1` (passive path, all-zero statistics). -/
def da1 : PhysicalDisk :=
  { device_name := "da1", rank := some 1, ident := none,
    multipath_parent := none, slot := none, enclosure := none,
    statistics := zeroStats, path_state := PathState.Unknown }

/-- Scenario group `tank-parity` declaring members `da0` (active) and `da1`
(passive). -/
def tpInfo : MultipathInfo :=
  { name := "tank-parity", serial := "tank-parity", state := MultipathState.Optimal,
    paths := [PathInfo.mk "da0" true, PathInfo.mk "da1" false] }

/-- A group whose single declared member `da9` resolves against no disk. -/
def ghostInfo : MultipathInfo :=
  { name := "multipath/X", serial := "X", state := MultipathState.Degraded,
    paths := [PathInfo.mk "da9" true] }

/-- A snapshot with timestamp 10 and no devices. -/
def snap10 : GeomSnapshot := { timestamp := 10, devices := [] }

/-- A snapshot with timestamp 5 and no devices. -/
def snap5 : GeomSnapshot := { timestamp := 5, devices := [] }

/-- A GEOM tree with no nodes. -/
def treeEmpty : Nat → Option GIdent := fun _ => none

/-- A trivial rate computation (the filters under study ignore the rates). -/
def statZero : DevStat → DevStat → Int → DiskStatistics := fun _ _ _ => default

/-- A tree mapping device id 0 to the name `da0` at rank 2 (a partition of a
conventionally named disk). -/
def treeDa0Rank2 : Nat → Option GIdent :=
  fun id => if id = 0 then some { name := some "da0", rank := some 2 } else none

/-- A tree mapping device id 0 to the name `da0` at rank 1. -/
def treeDa0Rank1 : Nat → Option GIdent :=
  fun id => if id = 0 then some { name := some "da0", rank := some 1 } else none

/-- A snapshot with timestamp 20 and the single device id 0. -/
def snap20d : GeomSnapshot := { timestamp := 20, devices := [⟨0, []⟩] }

/-- A snapshot with timestamp 30 and the single device id 0. -/
def snap30d : GeomSnapshot := { timestamp := 30, devices := [⟨0, []⟩] }

/-- Scenario groups for the slot-ordering claim: slots {5, none, 2} realised
through the SES fallback lookup on declared member names. -/
def slotGroupA : MultipathInfo :=
  { name := "multipath/A", serial := "A", state := MultipathState.Unknown,
    paths := [PathInfo.mk "da5" false] }

/-- The slotless scenario group. -/
def slotGroupB : MultipathInfo :=
  { name := "multipath/B", serial := "B", state := MultipathState.Unknown,
    paths := [] }

/-- The slot-2 scenario group. -/
def slotGroupC : MultipathInfo :=
  { name := "multipath/C", serial := "C", state := MultipathState.Unknown,
    paths := [PathInfo.mk "da2" false] }

/-- SES mapping giving `da5` slot 5 and `da2` slot 2. -/
def slotSes : List (String × SesSlotInfo) :=
  [("da5", { slot := 5, device_name := "da5", enclosure := "ses0" }),
   ("da2", { slot := 2, device_name := "da2", enclosure := "ses0" })]

/-- A standalone disk named `n` with identifier `i`. -/
def plainDisk (n : String) (i : Option String) : PhysicalDisk :=
  { device_name := n, rank := some 1, ident := i, multipath_parent := none,
    slot := none, enclosure := none, statistics := default,
    path_state := PathState.Unknown }

/-- An enclosure element at index 7 of array-device-slot type reporting the
device name `da3`. -/
def elemDa3 : SesElement :=
  { elm_idx := 7, elm_type := ELMTYP_ARRAY_DEV, devnames := ["da3"] }

/-! Characterizations used to state the claims about the path-collection
loop independently of its fold. -/

/-- The declared paths that resolve against the disk map. -/
def resolvedPaths (dm : List (String × PhysicalDisk)) (ps : List PathInfo) :
    List PathInfo :=
  ps.filter (fun p => (alLookup dm p.device_name).isSome)

/-- The name of the last path flagged active, if any (`active_path` is
overwritten on each active resolved path). -/
def activeOf (ps : List PathInfo) (a0 : Option String) : Option String :=
  ps.foldl (fun a p => if p.is_active then some p.device_name else a) a0

/-- Removal of every listed path's binding from the disk map. -/
def removeAll (dm : List (String × PhysicalDisk)) (ps : List PathInfo) :
    List (String × PhysicalDisk) :=
  ps.foldl (fun m p => alRemove m p.device_name) dm

/-- The disk a resolved path denotes in the disk map. -/
def getDisk (dm : List (String × PhysicalDisk)) (p : PathInfo) : PhysicalDisk :=
  (alLookup dm p.device_name).getD default

/-! Association-list lemmas. -/

theorem alLookup_append_of_isSome {α : Type} (m l : List (String × α)) (n : String)
    (h : (alLookup m n).isSome) : alLookup (m ++ l) n = alLookup m n := by
  induction m with
  | nil => simp [alLookup] at h
  | cons kv rest ih =>
      obtain ⟨k, v⟩ := kv
      by_cases hk : k = n
      · simp [alLookup, hk]
      · simp only [alLookup, if_neg hk] at h ⊢
        exact ih h

theorem alLookup_alInsert {α : Type} (m : List (String × α)) (k : String) (v : α)
    (n : String) :
    alLookup (alInsert m k v) n = if k = n then some v else alLookup m n := by
  induction m with
  | nil => simp [alInsert, alLookup]
  | cons kv rest ih =>
      obtain ⟨k0, v0⟩ := kv
      by_cases hk : k0 = k
      · subst hk
        by_cases hn : k0 = n <;> simp [alInsert, alLookup, hn]
      · by_cases hn : k0 = n
        · subst hn
          have hkn : ¬ k = k0 := fun h => hk h.symm
          simp [alInsert, alLookup, hk, hkn]
        · simp [alInsert, alLookup, hk, hn, ih]

theorem alLookup_alRemove_ne {α : Type} (m : List (String × α)) (k n : String)
    (h : k ≠ n) : alLookup (alRemove m k) n = alLookup m n := by
  induction m with
  | nil => simp [alRemove]
  | cons kv rest ih =>
      obtain ⟨k0, v0⟩ := kv
      by_cases hk : k0 = k
      · subst hk
        have : ¬ k0 = n := fun hn => h hn
        simp [alRemove, alLookup, this]
      · simp [alRemove, alLookup, hk, ih]

theorem alLookup_alRemove_none {α : Type} (m : List (String × α)) (k n : String)
    (h : alLookup m n = none) : alLookup (alRemove m k) n = none := by
  induction m with
  | nil => simpa [alRemove] using h
  | cons kv rest ih =>
      obtain ⟨k0, v0⟩ := kv
      by_cases hn : k0 = n
      · simp [alLookup, hn] at h
      · simp only [alLookup, if_neg hn] at h
        by_cases hk : k0 = k
        · simpa [alRemove, hk] using h
        · simp [alRemove, alLookup, hk, hn, ih h]

theorem alLookup_alInsertIfAbsent_of_isSome {α : Type} (m : List (String × α))
    (k : String) (v : α) (n : String) (h : (alLookup m n).isSome) :
    alLookup (alInsertIfAbsent m k v) n = alLookup m n := by
  unfold alInsertIfAbsent
  cases hk : alLookup m k with
  | some w => rfl
  | none => exact alLookup_append_of_isSome m _ n h

/-! A list whose `filterMap` image is duplicate-free sends distinct members
to distinct images. -/

theorem filterMap_nodup_inj {α β : Type} [DecidableEq β] (h : α → Option β)
    (l : List α) (hn : (l.filterMap h).Nodup) :
    ∀ a ∈ l, ∀ b ∈ l, ∀ y, h a = some y → h b = some y → a = b := by
  induction l with
  | nil => intro a ha; simp at ha
  | cons x xs ih =>
      intro a ha b hb y hay hby
      have hnx : (List.filterMap h (x :: xs)).Nodup := hn
      rw [List.filterMap_cons] at hnx
      rcases List.mem_cons.mp ha with ha' | ha' <;>
        rcases List.mem_cons.mp hb with hb' | hb'
      · rw [ha', hb']
      · exfalso
        subst ha'
        rw [hay] at hnx
        have : y ∈ xs.filterMap h := List.mem_filterMap.mpr ⟨b, hb', hby⟩
        exact (List.nodup_cons.mp hnx).1 this
      · exfalso
        subst hb'
        rw [hby] at hnx
        have : y ∈ xs.filterMap h := List.mem_filterMap.mpr ⟨a, ha', hay⟩
        exact (List.nodup_cons.mp hnx).1 this
      · have hxs : (xs.filterMap h).Nodup := by
          cases hx : h x with
          | none => rwa [hx] at hnx
          | some z => rw [hx] at hnx; exact (List.nodup_cons.mp hnx).2
        exact ih hxs a ha' b hb' y hay hby

/-! Lemmas about the stable insertion sort. -/

theorem mem_insertCmp {α : Type} (cmp : α → α → Ordering) (x a : α)
    (l : List α) : a ∈ insertCmp cmp x l ↔ a = x ∨ a ∈ l := by
  induction l with
  | nil => simp [insertCmp]
  | cons y ys ih =>
      by_cases h : cmp x y = .gt
      · simp only [insertCmp, if_pos h, List.mem_cons, ih]
        tauto
      · simp only [insertCmp, if_neg h, List.mem_cons]

theorem mem_sortByCmp {α : Type} (cmp : α → α → Ordering) (a : α)
    (l : List α) : a ∈ sortByCmp cmp l ↔ a ∈ l := by
  induction l with
  | nil => simp [sortByCmp]
  | cons x xs ih =>
      simp only [sortByCmp, mem_insertCmp, ih, List.mem_cons]

theorem pairwise_insertCmp {α : Type} (cmp : α → α → Ordering)
    (htot : ∀ a b, cmp a b = .gt → cmp b a ≠ .gt)
    (htrans : ∀ a b c, cmp a b ≠ .gt → cmp b c ≠ .gt → cmp a c ≠ .gt)
    (x : α) (l : List α)
    (hl : l.Pairwise (fun a b => cmp a b ≠ .gt)) :
    (insertCmp cmp x l).Pairwise (fun a b => cmp a b ≠ .gt) := by
  induction l with
  | nil => simp [insertCmp]
  | cons y ys ih =>
      rcases List.pairwise_cons.mp hl with ⟨hy, hys⟩
      by_cases h : cmp x y = .gt
      · rw [insertCmp, if_pos h]
        refine List.pairwise_cons.mpr ⟨?_, ih hys⟩
        intro z hz
        rcases (mem_insertCmp cmp x z ys).mp hz with hz' | hz'
        · rw [hz']; exact htot x y h
        · exact hy z hz'
      · rw [insertCmp, if_neg h]
        refine List.pairwise_cons.mpr ⟨?_, hl⟩
        intro z hz
        rcases List.mem_cons.mp hz with hz' | hz'
        · rw [hz']; exact h
        · exact htrans x y z h (hy z hz')

theorem pairwise_sortByCmp {α : Type} (cmp : α → α → Ordering)
    (htot : ∀ a b, cmp a b = .gt → cmp b a ≠ .gt)
    (htrans : ∀ a b c, cmp a b ≠ .gt → cmp b c ≠ .gt → cmp a c ≠ .gt)
    (l : List α) :
    (sortByCmp cmp l).Pairwise (fun a b => cmp a b ≠ .gt) := by
  induction l with
  | nil => simp [sortByCmp]
  | cons x xs ih => exact pairwise_insertCmp cmp htot htrans x _ ih

/-! The correlator's comparator realises the spec-side order `mdBefore`. -/

theorem mdCompare_not_gt_iff (a b : MultipathDevice) :
    mdCompare a b ≠ .gt ↔ mdBefore a b := by
  unfold mdCompare mdBefore
  cases ha : a.slot with
  | none =>
      cases hb : b.slot with
      | none =>
          by_cases h1 : a.name < b.name
          · simp only [if_pos h1]
            exact ⟨fun _ => le_of_lt h1, fun _ h => by cases h⟩
          · by_cases h2 : a.name = b.name
            · simp only [if_neg h1, if_pos h2]
              exact ⟨fun _ => le_of_eq h2, fun _ h => by cases h⟩
            · simp only [if_neg h1, if_neg h2]
              constructor
              · intro h; exact absurd rfl h
              · intro hle
                exact absurd (lt_of_le_of_ne hle h2) h1
      | some sb =>
          simp
  | some sa =>
      cases hb : b.slot with
      | none => simp
      | some sb =>
          by_cases h1 : sa < sb
          · simp only [if_pos h1]
            exact ⟨fun _ => le_of_lt h1, fun _ h => by cases h⟩
          · by_cases h2 : sa = sb
            · simp only [if_neg h1, if_pos h2]
              exact ⟨fun _ => le_of_eq h2, fun _ h => by cases h⟩
            · simp only [if_neg h1, if_neg h2]
              constructor
              · intro h; exact absurd rfl h
              · intro hle
                exact absurd (lt_of_le_of_ne hle h2) h1

theorem mdBefore_total (a b : MultipathDevice) : mdBefore a b ∨ mdBefore b a := by
  unfold mdBefore
  cases a.slot <;> cases b.slot <;> simp [le_total]

theorem mdBefore_trans (a b c : MultipathDevice) :
    mdBefore a b → mdBefore b c → mdBefore a c := by
  unfold mdBefore
  cases a.slot <;> cases b.slot <;> cases c.slot <;> simp <;>
    (intro h1 h2; exact le_trans h1 h2)

theorem mdCompare_total (a b : MultipathDevice) :
    mdCompare a b = .gt → mdCompare b a ≠ .gt := by
  intro h
  rw [mdCompare_not_gt_iff]
  rcases mdBefore_total a b with hab | hba
  · exact absurd ((mdCompare_not_gt_iff a b).mpr hab) (by simp [h])
  · exact hba

theorem mdCompare_trans (a b c : MultipathDevice) :
    mdCompare a b ≠ .gt → mdCompare b c ≠ .gt → mdCompare a c ≠ .gt := by
  rw [mdCompare_not_gt_iff, mdCompare_not_gt_iff, mdCompare_not_gt_iff]
  exact mdBefore_trans a b c

/-! Characterization of the path-collection fold of `correlate`. -/

theorem alLookup_mem {α : Type} (m : List (String × α)) (k : String) (v : α)
    (h : alLookup m k = some v) : (k, v) ∈ m := by
  induction m with
  | nil => simp [alLookup] at h
  | cons kv rest ih =>
      obtain ⟨k0, v0⟩ := kv
      by_cases hk : k0 = k
      · subst hk
        simp [alLookup] at h
        simp [h]
      · simp only [alLookup, if_neg hk] at h
        exact List.mem_cons_of_mem _ (ih h)

theorem resolvedPaths_congr (dm dm' : List (String × PhysicalDisk))
    (ps : List PathInfo)
    (h : ∀ q ∈ ps, alLookup dm' q.device_name = alLookup dm q.device_name) :
    resolvedPaths dm' ps = resolvedPaths dm ps := by
  unfold resolvedPaths
  exact List.filter_congr (fun q hq => by rw [h q hq])

theorem map_getDisk_congr (dm dm' : List (String × PhysicalDisk))
    (l : List PathInfo)
    (h : ∀ q ∈ l, alLookup dm' q.device_name = alLookup dm q.device_name) :
    l.map (getDisk dm') = l.map (getDisk dm) := by
  apply List.map_congr_left
  intro q hq
  unfold getDisk
  rw [h q hq]

theorem resolvedPaths_cons_none (dm : List (String × PhysicalDisk))
    (p : PathInfo) (rest : List PathInfo)
    (h : alLookup dm p.device_name = none) :
    resolvedPaths dm (p :: rest) = resolvedPaths dm rest := by
  simp [resolvedPaths, List.filter_cons, h]

theorem resolvedPaths_cons_some (dm : List (String × PhysicalDisk))
    (p : PathInfo) (rest : List PathInfo) (d : PhysicalDisk)
    (h : alLookup dm p.device_name = some d) :
    resolvedPaths dm (p :: rest) = p :: resolvedPaths dm rest := by
  simp [resolvedPaths, List.filter_cons, h]

theorem foldPaths_eq (ps : List PathInfo) :
    ∀ (dm : List (String × PhysicalDisk)) (pd0 : List PhysicalDisk)
      (a0 : Option String),
    (ps.map (fun p => p.device_name)).Nodup →
    ps.foldl collectPathStep (pd0, a0, dm) =
      (pd0 ++ (resolvedPaths dm ps).map (getDisk dm),
       activeOf (resolvedPaths dm ps) a0,
       removeAll dm (resolvedPaths dm ps)) := by
  induction ps with
  | nil =>
      intro dm pd0 a0 _
      simp [resolvedPaths, activeOf, removeAll]
  | cons p rest ih =>
      intro dm pd0 a0 hnd
      rw [List.map_cons, List.nodup_cons] at hnd
      obtain ⟨hpn, hnd'⟩ := hnd
      rw [List.foldl_cons]
      cases hlook : alLookup dm p.device_name with
      | none =>
          have hstep : collectPathStep (pd0, a0, dm) p = (pd0, a0, dm) := by
            simp [collectPathStep, hlook]
          rw [hstep, ih dm pd0 a0 hnd', resolvedPaths_cons_none dm p rest hlook]
      | some disk =>
          have hstep : collectPathStep (pd0, a0, dm) p =
              (pd0 ++ [disk],
               if p.is_active then some p.device_name else a0,
               alRemove dm p.device_name) := by
            simp [collectPathStep, hlook]
          rw [hstep, ih _ _ _ hnd']
          have hcong : ∀ q ∈ rest,
              alLookup (alRemove dm p.device_name) q.device_name =
                alLookup dm q.device_name := by
            intro q hq
            apply alLookup_alRemove_ne
            intro hEq
            exact hpn (hEq ▸ List.mem_map_of_mem (fun x => x.device_name) hq)
          have h1 : resolvedPaths (alRemove dm p.device_name) rest =
              resolvedPaths dm rest := resolvedPaths_congr _ _ _ hcong
          have h2 : (resolvedPaths dm rest).map (getDisk (alRemove dm p.device_name)) =
              (resolvedPaths dm rest).map (getDisk dm) := by
            apply map_getDisk_congr
            intro q hq
            exact hcong q (List.mem_of_mem_filter hq)
          rw [h1, h2, resolvedPaths_cons_some dm p rest disk hlook]
          have hgd : getDisk dm p = disk := by simp [getDisk, hlook]
          simp [activeOf, removeAll, List.foldl_cons, hgd]

theorem activeOf_no_active (l : List PathInfo) :
    ∀ (a0 : Option String), (∀ p ∈ l, p.is_active = false) →
    activeOf l a0 = a0 := by
  induction l with
  | nil => intro a0 _; rfl
  | cons p rest ih =>
      intro a0 h
      have hp : p.is_active = false := h p (List.mem_cons_self p rest)
      have hstep : activeOf (p :: rest) a0 = activeOf rest a0 := by
        simp [activeOf, List.foldl_cons, hp]
      rw [hstep]
      exact ih a0 (fun q hq => h q (List.mem_cons_of_mem p hq))

theorem activeOf_const (l : List PathInfo) (nm : String)
    (h : ∀ q ∈ l, q.is_active = true → q.device_name = nm) :
    activeOf l (some nm) = some nm := by
  induction l with
  | nil => rfl
  | cons p rest ih =>
      by_cases hp : p.is_active = true
      · have : activeOf (p :: rest) (some nm) =
            activeOf rest (some p.device_name) := by
          simp [activeOf, List.foldl_cons, hp]
        rw [this, h p (List.mem_cons_self p rest) hp]
        exact ih (fun q hq => h q (List.mem_cons_of_mem p hq))
      · have : activeOf (p :: rest) (some nm) = activeOf rest (some nm) := by
          simp [activeOf, List.foldl_cons, hp]
        rw [this]
        exact ih (fun q hq => h q (List.mem_cons_of_mem p hq))

theorem activeOf_unique (l : List PathInfo)
    (h : ∀ p ∈ l, ∀ q ∈ l, p.is_active = true → q.is_active = true → p = q) :
    activeOf l none = (l.find? (fun p => p.is_active)).map (fun p => p.device_name) := by
  induction l with
  | nil => rfl
  | cons p rest ih =>
      by_cases hp : p.is_active = true
      · have hfind : (p :: rest).find? (fun q => q.is_active) = some p := by
          rw [List.find?_cons_of_pos _ hp]
        rw [hfind]
        have hstep : activeOf (p :: rest) none =
            activeOf rest (some p.device_name) := by
          simp [activeOf, List.foldl_cons, hp]
        rw [hstep]
        simp only [Option.map_some']
        apply activeOf_const
        intro q hq hqa
        have := h q (List.mem_cons_of_mem p hq) p (List.mem_cons_self p rest) hqa hp
        rw [this]
      · have hp' : p.is_active = false := by
          cases hb : p.is_active
          · rfl
          · exact absurd hb hp
        have hfind : (p :: rest).find? (fun q => q.is_active) =
            rest.find? (fun q => q.is_active) := by
          rw [List.find?_cons_of_neg _ (by simp [hp'])]
        rw [hfind]
        have hstep : activeOf (p :: rest) none = activeOf rest none := by
          simp [activeOf, List.foldl_cons, hp']
        rw [hstep]
        exact ih (fun a ha b hb haa hbb =>
          h a (List.mem_cons_of_mem p ha) b (List.mem_cons_of_mem p hb) haa hbb)

theorem find?_map_name (dm : List (String × PhysicalDisk)) (l : List PathInfo)
    (p : PathInfo) (hmem : p ∈ l)
    (hcons : ∀ q ∈ l, (getDisk dm q).device_name = q.device_name) :
    (l.map (getDisk dm)).find? (fun d => d.device_name = p.device_name) =
      some (getDisk dm p) := by
  induction l with
  | nil => simp at hmem
  | cons q rest ih =>
      by_cases hq : q.device_name = p.device_name
      · have hpred : ((getDisk dm q).device_name = p.device_name) := by
          rw [hcons q (List.mem_cons_self q rest)]; exact hq
        have hgd : getDisk dm q = getDisk dm p := by
          unfold getDisk
          rw [hq]
        rw [List.map_cons, List.find?_cons_of_pos _ (by simpa using hpred), hgd]
      · have hpred : ¬ ((getDisk dm q).device_name = p.device_name) := by
          rw [hcons q (List.mem_cons_self q rest)]; exact hq
        have hpq : p ≠ q := fun h => hq (by rw [h])
        have hmem' : p ∈ rest := by
          rcases List.mem_cons.mp hmem with h | h
          · exact absurd h.symm hpq.symm
          · exact h
        rw [List.map_cons, List.find?_cons_of_neg _ (by simpa using hpred)]
        exact ih hmem' (fun r hr => hcons r (List.mem_cons_of_mem q hr))

/-! Lemmas for groups none of whose declared members resolve. -/

theorem collectFold_allnone (ps : List PathInfo) :
    ∀ (dm : List (String × PhysicalDisk)) (pd0 : List PhysicalDisk)
      (a0 : Option String),
    (∀ p ∈ ps, alLookup dm p.device_name = none) →
    ps.foldl collectPathStep (pd0, a0, dm) = (pd0, a0, dm) := by
  induction ps with
  | nil => intro dm pd0 a0 _; rfl
  | cons p rest ih =>
      intro dm pd0 a0 h
      have hp : alLookup dm p.device_name = none :=
        h p (List.mem_cons_self p rest)
      have hstep : collectPathStep (pd0, a0, dm) p = (pd0, a0, dm) := by
        simp [collectPathStep, hp]
      rw [List.foldl_cons, hstep]
      exact ih dm pd0 a0 (fun q hq => h q (List.mem_cons_of_mem p hq))

theorem collectFold_none_preserved (ps : List PathInfo) (k : String) :
    ∀ (acc : List PhysicalDisk × Option String × List (String × PhysicalDisk)),
    alLookup acc.2.2 k = none →
    alLookup (ps.foldl collectPathStep acc).2.2 k = none := by
  induction ps with
  | nil => intro acc h; exact h
  | cons p rest ih =>
      intro acc h
      rw [List.foldl_cons]
      apply ih
      obtain ⟨pd0, a0, dm⟩ := acc
      cases hlook : alLookup dm p.device_name with
      | none => simpa [collectPathStep, hlook] using h
      | some disk =>
          simp only [collectPathStep, hlook]
          exact alLookup_alRemove_none dm p.device_name k h

theorem processGroup_name (ses_info : List (String × SesSlotInfo))
    (zfs_info : List (String × ZfsDriveInfo))
    (dm : List (String × PhysicalDisk)) (n : String) (info : MultipathInfo) :
    (processGroup ses_info zfs_info dm n info).1.name = n := by
  unfold processGroup
  simp

theorem processGroup_unresolved_stats (ses_info : List (String × SesSlotInfo))
    (zfs_info : List (String × ZfsDriveInfo))
    (dm : List (String × PhysicalDisk)) (n : String) (info : MultipathInfo)
    (h : ∀ p ∈ info.paths, alLookup dm p.device_name = none) :
    (processGroup ses_info zfs_info dm n info).1.statistics = default := by
  unfold processGroup
  rw [collectFold_allnone info.paths dm [] none h]
  simp

theorem processGroup_snd_none (ses_info : List (String × SesSlotInfo))
    (zfs_info : List (String × ZfsDriveInfo))
    (dm : List (String × PhysicalDisk)) (n : String) (info : MultipathInfo)
    (k : String) (h : alLookup dm k = none) :
    alLookup (processGroup ses_info zfs_info dm n info).2 k = none := by
  unfold processGroup
  simp only []
  exact collectFold_none_preserved info.paths k ([], none, dm) h

theorem correlateLoop_emits (ses_info : List (String × SesSlotInfo))
    (zfs_info : List (String × ZfsDriveInfo)) (groups : List (String × MultipathInfo)) :
    ∀ (dm : List (String × PhysicalDisk)) (n : String) (info : MultipathInfo),
    (n, info) ∈ groups →
    (∀ p ∈ info.paths, alLookup dm p.device_name = none) →
    ∃ md ∈ (correlateLoop ses_info zfs_info groups dm).1,
      md.name = n ∧ md.statistics = default := by
  induction groups with
  | nil => intro dm n info hmem; simp at hmem
  | cons g rest ih =>
      intro dm n info hmem hnone
      obtain ⟨n', info'⟩ := g
      rcases List.mem_cons.mp hmem with hg | hg
      · obtain ⟨hn, hinfo⟩ := Prod.mk.injEq .. ▸ hg
        refine ⟨(processGroup ses_info zfs_info dm n' info').1, ?_, ?_, ?_⟩
        · simp [correlateLoop]
        · rw [processGroup_name, hn]
        · apply processGroup_unresolved_stats
          rw [hinfo] at hnone
          exact hnone
      · have hnone' : ∀ p ∈ info.paths,
            alLookup (processGroup ses_info zfs_info dm n' info').2 p.device_name = none :=
          fun p hp => processGroup_snd_none _ _ _ _ _ _ (hnone p hp)
        obtain ⟨md, hmd, hprops⟩ :=
          ih (processGroup ses_info zfs_info dm n' info').2 n info hg hnone'
        refine ⟨md, ?_, hprops⟩
        simp [correlateLoop]
        right
        exact hmd

theorem buildDiskStep_name (ses_info : List (String × SesSlotInfo))
    (m : List (String × PhysicalDisk)) (d : PhysicalDisk) (k : String)
    (hd : d.device_name ≠ k) (h : alLookup m k = none) :
    alLookup (buildDiskStep ses_info m d) k = none := by
  unfold buildDiskStep
  cases hses : alLookup ses_info d.device_name <;>
    simp [alLookup_alInsert, hd, h]

theorem buildDiskMap_none (ses_info : List (String × SesSlotInfo))
    (pds : List PhysicalDisk) (k : String)
    (h : ∀ d ∈ pds, d.device_name ≠ k) :
    alLookup (buildDiskMap ses_info pds) k = none := by
  unfold buildDiskMap
  have main : ∀ (l : List PhysicalDisk) (m : List (String × PhysicalDisk)),
      (∀ d ∈ l, d.device_name ≠ k) → alLookup m k = none →
      alLookup (l.foldl (buildDiskStep ses_info) m) k = none := by
    intro l
    induction l with
    | nil => intro m _ hm; exact hm
    | cons d rest ih =>
        intro m hl hm
        rw [List.foldl_cons]
        exact ih _ (fun e he => hl e (List.mem_cons_of_mem d he))
          (buildDiskStep_name ses_info m d k (hl d (List.mem_cons_self d rest)) hm)
  exact main pds [] h rfl

/-! Lemmas for the standalone-disk deduplication. -/

theorem mem_alInsert {α : Type} (m : List (String × α)) (k : String) (v : α) :
    ∀ kv ∈ alInsert m k v, kv = (k, v) ∨ kv ∈ m := by
  induction m with
  | nil => intro kv h; simp [alInsert] at h; simp [h]
  | cons x rest ih =>
      obtain ⟨k0, v0⟩ := x
      intro kv h
      by_cases hk : k0 = k
      · rw [alInsert, if_pos hk] at h
        rcases List.mem_cons.mp h with h' | h'
        · left; exact h'
        · right; exact List.mem_cons_of_mem _ h'
      · rw [alInsert, if_neg hk] at h
        rcases List.mem_cons.mp h with h' | h'
        · right; rw [h']; exact List.mem_cons_self _ _
        · rcases ih kv h' with h'' | h''
          · left; exact h''
          · right; exact List.mem_cons_of_mem _ h''

theorem alInsert_fst_mem {α : Type} (m : List (String × α)) (k : String) (v : α)
    (a : String) :
    a ∈ (alInsert m k v).map Prod.fst ↔ a = k ∨ a ∈ m.map Prod.fst := by
  induction m with
  | nil => simp [alInsert, eq_comm]
  | cons x rest ih =>
      obtain ⟨k0, v0⟩ := x
      by_cases hk : k0 = k
      · subst hk
        simp [alInsert, eq_comm]
      · simp only [alInsert, if_neg hk, List.map_cons, List.mem_cons, ih]
        tauto

theorem alInsert_fst_nodup {α : Type} (m : List (String × α)) (k : String) (v : α)
    (h : (m.map Prod.fst).Nodup) : ((alInsert m k v).map Prod.fst).Nodup := by
  induction m with
  | nil => simp [alInsert]
  | cons x rest ih =>
      obtain ⟨k0, v0⟩ := x
      rw [List.map_cons, List.nodup_cons] at h
      obtain ⟨hk0, hrest⟩ := h
      by_cases hk : k0 = k
      · subst hk
        have heq : alInsert ((k0, v0) :: rest) k0 v = (k0, v) :: rest := by
          simp [alInsert]
        rw [heq, List.map_cons, List.nodup_cons]
        exact ⟨hk0, hrest⟩
      · simp only [alInsert, if_neg hk, List.map_cons, List.nodup_cons]
        refine ⟨?_, ih hrest⟩
        intro hmem
        rcases (alInsert_fst_mem rest k v k0).mp hmem with h' | h'
        · exact hk h'
        · exact hk0 h'

theorem dedupFold_char (m : List (String × PhysicalDisk)) :
    ∀ (G : List (String × List PhysicalDisk)) (N : List PhysicalDisk),
    (∀ kv ∈ G, kv.2 ≠ [] ∧ ∀ d ∈ kv.2, d.ident = some kv.1) →
    (G.map Prod.fst).Nodup →
    (∀ kv ∈ (m.foldl dedupGroupStep (G, N)).1,
        kv.2 ≠ [] ∧ ∀ d ∈ kv.2, d.ident = some kv.1) ∧
    ((m.foldl dedupGroupStep (G, N)).1.map Prod.fst).Nodup ∧
    (∀ i, i ∈ (m.foldl dedupGroupStep (G, N)).1.map Prod.fst ↔
        i ∈ G.map Prod.fst ∨ ∃ kv ∈ m, kv.2.ident = some i) ∧
    (m.foldl dedupGroupStep (G, N)).2 =
      N ++ (m.map Prod.snd).filter (fun d => d.ident = none) := by
  induction m with
  | nil =>
      intro G N hinv hnd
      refine ⟨hinv, hnd, ?_, by simp⟩
      intro i; simp
  | cons kv0 rest ih =>
      intro G N hinv hnd
      obtain ⟨k0, disk⟩ := kv0
      rw [List.foldl_cons]
      cases hid : disk.ident with
      | none =>
          have hstep : dedupGroupStep (G, N) (k0, disk) = (G, N ++ [disk]) := by
            simp [dedupGroupStep, hid]
          rw [hstep]
          obtain ⟨a, b, c, d⟩ := ih G (N ++ [disk]) hinv hnd
          refine ⟨a, b, ?_, ?_⟩
          · intro i
            rw [c i]
            constructor
            · rintro (h | ⟨kv, hkv, hkvi⟩)
              · exact Or.inl h
              · exact Or.inr ⟨kv, List.mem_cons_of_mem _ hkv, hkvi⟩
            · rintro (h | ⟨kv, hkv, hkvi⟩)
              · exact Or.inl h
              · rcases List.mem_cons.mp hkv with h' | h'
                · rw [h'] at hkvi; simp only at hkvi; rw [hid] at hkvi; cases hkvi
                · exact Or.inr ⟨kv, h', hkvi⟩
          · rw [d]
            simp [List.filter_cons, hid]
      | some j =>
          set G' := match alLookup G j with
            | some g => alInsert G j (g ++ [disk])
            | none => alInsert G j [disk] with hG'
          have hstep : dedupGroupStep (G, N) (k0, disk) = (G', N) := by
            simp only [dedupGroupStep, hid]
          rw [hstep]
          have hinv' : ∀ kv ∈ G', kv.2 ≠ [] ∧ ∀ d ∈ kv.2, d.ident = some kv.1 := by
            intro kv hkv
            cases hlook : alLookup G j with
            | some g =>
                rw [hG', hlook] at hkv
                rcases mem_alInsert G j (g ++ [disk]) kv hkv with h' | h'
                · rw [h']
                  refine ⟨by simp, ?_⟩
                  intro d hd
                  rcases List.mem_append.mp hd with h'' | h''
                  · exact (hinv (j, g) (alLookup_mem G j g hlook)).2 d h''
                  · rw [List.mem_singleton.mp h'']; exact hid
                · exact hinv kv h'
            | none =>
                rw [hG', hlook] at hkv
                rcases mem_alInsert G j [disk] kv hkv with h' | h'
                · rw [h']
                  exact ⟨by simp, fun d hd => by
                    rw [List.mem_singleton.mp hd]; exact hid⟩
                · exact hinv kv h'
          have hnd' : (G'.map Prod.fst).Nodup := by
            cases hlook : alLookup G j <;>
              (rw [hG', hlook]; exact alInsert_fst_nodup _ _ _ hnd)
          have hmemG' : ∀ i, i ∈ G'.map Prod.fst ↔ i = j ∨ i ∈ G.map Prod.fst := by
            intro i
            cases hlook : alLookup G j <;>
              (rw [hG', hlook]; exact alInsert_fst_mem _ _ _ _)
          obtain ⟨a, b, c, d⟩ := ih G' N hinv' hnd'
          refine ⟨a, b, ?_, ?_⟩
          · intro i
            rw [c i, hmemG' i]
            constructor
            · rintro ((h | h) | ⟨kv, hkv, hkvi⟩)
              · exact Or.inr ⟨(k0, disk), List.mem_cons_self _ _, by
                  simp only; rw [hid, h]⟩
              · exact Or.inl h
              · exact Or.inr ⟨kv, List.mem_cons_of_mem _ hkv, hkvi⟩
            · rintro (h | ⟨kv, hkv, hkvi⟩)
              · exact Or.inl (Or.inr h)
              · rcases List.mem_cons.mp hkv with h' | h'
                · rw [h'] at hkvi
                  simp only at hkvi
                  rw [hid] at hkvi
                  exact Or.inl (Or.inl (Option.some.injEq .. ▸ hkvi).symm)
                · exact Or.inr ⟨kv, h', hkvi⟩
          · rw [d]
            simp [List.filter_cons, hid]

theorem dedupHeads_eq_map (G : List (String × List PhysicalDisk)) :
    dedupHeads G = G.map (fun g => g.2.headI) := by
  unfold dedupHeads
  have main : ∀ (l : List (String × List PhysicalDisk)) (r0 : List PhysicalDisk),
      l.foldl (fun r g => r ++ [g.2.headI]) r0 = r0 ++ l.map (fun g => g.2.headI) := by
    intro l
    induction l with
    | nil => intro r0; simp
    | cons g rest ih => intro r0; rw [List.foldl_cons, ih]; simp
  simpa using main G []

theorem headI_mem_of_ne_nil {α : Type} [Inhabited α] (l : List α) (h : l ≠ []) :
    l.headI ∈ l := by
  cases l with
  | nil => exact absurd rfl h
  | cons a t => simp [List.headI]

theorem heads_countP (i : String) (G : List (String × List PhysicalDisk))
    (hinv : ∀ kv ∈ G, kv.2 ≠ [] ∧ ∀ d ∈ kv.2, d.ident = some kv.1)
    (hnd : (G.map Prod.fst).Nodup) :
    (G.map (fun g => g.2.headI)).countP (fun d => d.ident = some i) =
      if i ∈ G.map Prod.fst then 1 else 0 := by
  induction G with
  | nil => simp
  | cons g G' ih =>
      obtain ⟨hne, hall⟩ := hinv g (List.mem_cons_self g G')
      have hhead : g.2.headI.ident = some g.1 :=
        hall _ (headI_mem_of_ne_nil g.2 hne)
      rw [List.map_cons, List.nodup_cons] at hnd
      obtain ⟨hg1, hnd'⟩ := hnd
      have ih' := ih (fun kv hkv => hinv kv (List.mem_cons_of_mem g hkv)) hnd'
      by_cases hgi : g.1 = i
      · have hzero : (G'.map (fun g => g.2.headI)).countP
            (fun d => d.ident = some i) = 0 := by
          rw [ih', if_neg]
          rw [← hgi]
          exact hg1
        rw [List.map_cons, List.countP_cons]
        rw [hzero]
        have hin : i ∈ (g :: G').map Prod.fst := by
          rw [List.map_cons, ← hgi]
          exact List.mem_cons_self _ _
        rw [if_pos hin]
        simp [hhead, hgi]
      · rw [List.map_cons, List.countP_cons]
        have hpred : (decide (g.2.headI.ident = some i)) = false := by
          simp [hhead, hgi]
        rw [hpred]
        have hmem : (i ∈ (g :: G').map Prod.fst) ↔ i ∈ G'.map Prod.fst := by
          rw [List.map_cons, List.mem_cons]
          constructor
          · rintro (h | h)
            · exact absurd h.symm hgi
            · exact h
          · exact Or.inr
        rw [ih']
        by_cases hi : i ∈ G'.map Prod.fst
        · rw [if_pos hi, if_pos (hmem.mpr hi)]
          simp
        · rw [if_neg hi, if_neg (fun h => hi (hmem.mp h))]
          simp

theorem heads_filter_none (G : List (String × List PhysicalDisk))
    (hinv : ∀ kv ∈ G, kv.2 ≠ [] ∧ ∀ d ∈ kv.2, d.ident = some kv.1) :
    (G.map (fun g => g.2.headI)).filter (fun d => d.ident = none) = [] := by
  induction G with
  | nil => rfl
  | cons g G' ih =>
      obtain ⟨hne, hall⟩ := hinv g (List.mem_cons_self g G')
      have hhead : g.2.headI.ident = some g.1 :=
        hall _ (headI_mem_of_ne_nil g.2 hne)
      rw [List.map_cons, List.filter_cons]
      have : (decide (g.2.headI.ident = none)) = false := by simp [hhead]
      rw [this]
      exact ih (fun kv hkv => hinv kv (List.mem_cons_of_mem g hkv))

theorem filter_none_countP_some (l : List PhysicalDisk) (i : String) :
    (l.filter (fun d => d.ident = none)).countP (fun d => d.ident = some i) = 0 := by
  induction l with
  | nil => rfl
  | cons d rest ih =>
      rw [List.filter_cons]
      cases hid : d.ident with
      | none => simp [hid, List.countP_cons, ih]
      | some j => simp [hid, ih]

/-! Lemmas for the first-wins SES slot merge. -/

theorem sesInsertAll_preserve (maps : List (String × SesSlotInfo)) :
    ∀ (m : List (String × SesSlotInfo)) (n : String),
    (alLookup m n).isSome →
    alLookup (sesInsertAll m maps) n = alLookup m n := by
  induction maps with
  | nil => intro m n _; rfl
  | cons kv rest ih =>
      intro m n h
      unfold sesInsertAll
      rw [List.foldl_cons]
      have hstep : alLookup (alInsertIfAbsent m kv.1 kv.2) n = alLookup m n :=
        alLookup_alInsertIfAbsent_of_isSome m kv.1 kv.2 n h
      have hsome : (alLookup (alInsertIfAbsent m kv.1 kv.2) n).isSome := by
        rw [hstep]; exact h
      have := ih (alInsertIfAbsent m kv.1 kv.2) n hsome
      unfold sesInsertAll at this
      rw [this, hstep]

theorem sesStep_preserve (m : List (String × SesSlotInfo))
    (enc : String × Except String (List SesElement)) (n : String)
    (h : (alLookup m n).isSome) :
    alLookup (sesStep m enc) n = alLookup m n := by
  unfold sesStep
  cases enc.2 with
  | ok elements => exact sesInsertAll_preserve _ m n h
  | error e => rfl

theorem sesFold_preserve (l : List (String × Except String (List SesElement))) :
    ∀ (m : List (String × SesSlotInfo)) (n : String),
    (alLookup m n).isSome →
    alLookup (l.foldl sesStep m) n = alLookup m n := by
  induction l with
  | nil => intro m n _; rfl
  | cons enc rest ih =>
      intro m n h
      rw [List.foldl_cons]
      have hstep := sesStep_preserve m enc n h
      have hsome : (alLookup (sesStep m enc) n).isSome := by
        rw [hstep]; exact h
      rw [ih (sesStep m enc) n hsome, hstep]

/-! Lemmas for the per-drive busy-history buffers. -/

theorem dbhFold_isSome (hs : Nat) (mds : List MultipathDevice) :
    ∀ (m : List (String × List ℚ)) (n : String),
    (alLookup (mds.foldl (drive_history_step hs) m) n).isSome ↔
      (alLookup m n).isSome ∨ n ∈ mds.map (fun d => d.name) := by
  induction mds with
  | nil => intro m n; simp
  | cons d rest ih =>
      intro m n
      rw [List.foldl_cons]
      rw [ih]
      have hstep : (alLookup (drive_history_step hs m d) n).isSome ↔
          d.name = n ∨ (alLookup m n).isSome := by
        unfold drive_history_step
        rw [alLookup_alInsert]
        by_cases h : d.name = n <;> simp [h]
      rw [hstep]
      rw [List.map_cons, List.mem_cons]
      constructor
      · rintro ((h | h) | h)
        · exact Or.inr (Or.inl h.symm)
        · exact Or.inl h
        · exact Or.inr (Or.inr h)
      · rintro (h | (h | h))
        · exact Or.inl (Or.inr h)
        · exact Or.inl (Or.inl h.symm)
        · exact Or.inr h

theorem alLookup_filter_key {α : Type} (p : String → Bool)
    (m : List (String × α)) (n : String) :
    alLookup (m.filter (fun kv => p kv.1)) n =
      if p n then alLookup m n else none := by
  induction m with
  | nil => simp [alLookup]
  | cons kv rest ih =>
      obtain ⟨k, v⟩ := kv
      rw [List.filter_cons]
      by_cases hp : p k
      · by_cases hk : k = n
        · subst hk
          simp [hp, alLookup]
        · simp [hp, alLookup, hk, ih]
      · by_cases hk : k = n
        · subst hk
          simp [hp, alLookup, ih]
        · simp [hp, alLookup, hk, ih]

theorem dedup_countP (m : List (String × PhysicalDisk)) (i : String) :
    (deduplicate_by_wwn m).countP (fun d => d.ident = some i) =
      if ∃ kv ∈ m, kv.2.ident = some i then 1 else 0 := by
  obtain ⟨a, b, c, d⟩ := dedupFold_char m [] [] (by simp) (by simp)
  unfold deduplicate_by_wwn
  rw [List.countP_append, dedupHeads_eq_map, heads_countP i _ a b, d]
  simp only [List.nil_append]
  rw [filter_none_countP_some]
  have := c i
  simp only [List.map_nil, List.not_mem_nil, false_or] at this
  by_cases hex : ∃ kv ∈ m, kv.2.ident = some i
  · rw [if_pos (this.mpr hex), if_pos hex]
  · rw [if_neg (fun h => hex (this.mp h)), if_neg hex]

theorem dedup_noident (m : List (String × PhysicalDisk)) :
    (deduplicate_by_wwn m).filter (fun d => d.ident = none) =
      (m.map Prod.snd).filter (fun d => d.ident = none) := by
  obtain ⟨a, _, _, d⟩ := dedupFold_char m [] [] (by simp) (by simp)
  unfold deduplicate_by_wwn
  rw [List.filter_append, dedupHeads_eq_map, heads_filter_none _ a, d]
  simp [List.filter_filter]

/-! Further helper lemmas used by the remaining claim theorems. -/

theorem keepDevice_iff (n : String) (rank : Option Nat) :
    keepDevice n rank = true ↔
      (is_physical_disk n = true ∧
        (rank = none ∨ (∃ r, rank = some r ∧ r ≤ 1) ∨
         strStarts n "multipath/" = true)) := by
  unfold keepDevice
  cases hphys : is_physical_disk n
  · simp
  · cases rank with
    | none => simp
    | some r =>
        cases hmp : strStarts n "multipath/" <;> by_cases hr : r > 1
        · simp [hmp, hr]
        · simp [hmp, hr]
          omega
        · simp [hmp, hr]
        · simp [hmp, hr]

theorem resolved_lookup_isSome (dm : List (String × PhysicalDisk))
    (ps : List PathInfo) (q : PathInfo) (hq : q ∈ resolvedPaths dm ps) :
    (alLookup dm q.device_name).isSome := by
  unfold resolvedPaths at hq
  exact (List.mem_filter.mp hq).2

theorem resolved_sub (dm : List (String × PhysicalDisk))
    (ps : List PathInfo) (q : PathInfo) (hq : q ∈ resolvedPaths dm ps) :
    q ∈ ps :=
  List.mem_of_mem_filter hq

/-! Claim theorems. -/

/-- C2 (amended): when a previous snapshot exists and the elapsed time
between the new snapshot and the stored one is non-positive, `collect`
returns an empty sequence of `PhysicalDisk` — but it does replace the stored
previous snapshot with the new one. -/
theorem c2_nonpositive_elapsed (tree : Nat → Option GIdent)
    (statCompute : DevStat → DevStat → Int → DiskStatistics)
    (prev cur : GeomSnapshot)
    (h : cur.timestamp - prev.timestamp ≤ 0) :
    geomCollect tree statCompute ⟨some prev⟩ cur =
      ([], ⟨some cur⟩) := by
  unfold geomCollect compute_statistics
  simp [h]

/-- C2 witness: a concrete run with timestamps 10 then 5 returns no disks
and stores the newer snapshot. -/
theorem c2_nonpositive_elapsed_witness :
    geomCollect treeEmpty statZero ⟨some snap10⟩ snap5 = ([], ⟨some snap5⟩) :=
  c2_nonpositive_elapsed treeEmpty statZero snap10 snap5 (by decide)

/-- C2 counterexample: with stored snapshot `snap10` and new snapshot
`snap5` (elapsed −5 ≤ 0) the call returns an empty sequence, yet the stored
previous snapshot is replaced by the new one, contrary to the claim. -/
theorem c2_snapshot_replaced_cex :
    (geomCollect treeEmpty statZero ⟨some snap10⟩ snap5).1 = [] ∧
    (geomCollect treeEmpty statZero ⟨some snap10⟩ snap5).2 =
      GeomState.mk (some snap5) ∧
    snap5 ≠ snap10 := by
  refine ⟨rfl, rfl, by decide⟩

/-- C3 counterexample: on a tick where the multipath (Path-Group Reader)
collection fails, the loop `continue`s — the correlator does not run and no
empty mapping is substituted, contrary to the claim. -/
theorem c3_multipath_failure_skips_tick_cex :
    tick (Except.ok []) (Except.error "gmultipath command failed")
      (Except.ok []) [] = none := rfl

/-- C3 (amended): on a tick where the Pool-Role (ZFS) Reader fails, an empty
mapping is substituted and the Correlator still runs; the Slot Mapper is
collected once at startup with an empty-map fallback; but on a tick where the
Path-Group Reader (multipath) fails, the tick is skipped before the
Correlator runs. -/
theorem c3_degraded_sources :
    (∀ (pds : List PhysicalDisk) (mpi : List (String × MultipathInfo))
       (e : String) (si : List (String × SesSlotInfo)),
       tick (Except.ok pds) (Except.ok mpi) (Except.error e) si =
         some (correlate pds mpi si [])) ∧
    (∀ (pds : List PhysicalDisk) (e : String)
       (zfsRes : Except String (List (String × ZfsDriveInfo)))
       (si : List (String × SesSlotInfo)),
       tick (Except.ok pds) (Except.error e) zfsRes si = none) ∧
    (∀ e : String, sesStartup (Except.error e) = []) :=
  ⟨fun _ _ _ _ => rfl, fun _ _ _ _ => rfl, fun _ => rfl⟩

/-- C5 counterexample: when a member's `State:` line precedes its `Name:`
line inside the Consumers section, the stated ACTIVE flag is dropped and the
resulting path entry is inactive, contrary to the claim that both orderings
carry the stated flag. -/
theorem c5_state_before_name_cex :
    (alLookup (parse_gmultipath_output
        ["Geom name: G", "Consumers:", "State: ACTIVE", "Name: da8"])
      "multipath/G").map (fun i => i.paths) =
      some [PathInfo.mk "da8" false] := by
  decide

/-- C5 (amended): in the Consumers section a name line followed by its state
line yields a path entry carrying the stated active flag (tracked via the
pending-name slot); in the reverse ordering the state line is ignored and
the path entry defaults to inactive. -/
theorem c5_pending_name_orderings :
    ∀ b : Bool,
    (alLookup (parse_gmultipath_output
        ["Geom name: G", "Consumers:", "Name: da8",
         "State: " ++ (if b then "ACTIVE" else "PASSIVE")])
      "multipath/G").map (fun i => i.paths) =
      some [PathInfo.mk "da8" b] ∧
    (alLookup (parse_gmultipath_output
        ["Geom name: G", "Consumers:",
         "State: " ++ (if b then "ACTIVE" else "PASSIVE"), "Name: da8"])
      "multipath/G").map (fun i => i.paths) =
      some [PathInfo.mk "da8" false] := by
  intro b
  cases b
  · exact ⟨by decide, by decide⟩
  · exact ⟨by decide, by decide⟩

/-- C7: the multipath-device list produced by `correlate` is sorted with all
groups having a known slot first in ascending slot order, followed by all
slotless groups ordered by name; and for input slots {5, none, 2} the output
order is [slot 2, slot 5, the slotless one]. -/
theorem c7_slot_ordering :
    (∀ (pds : List PhysicalDisk) (groups : List (String × MultipathInfo))
       (si : List (String × SesSlotInfo)) (zi : List (String × ZfsDriveInfo)),
       ((correlate pds groups si zi).1).Pairwise mdBefore) ∧
    ((correlate []
        [("multipath/A", slotGroupA), ("multipath/B", slotGroupB),
         ("multipath/C", slotGroupC)] slotSes []).1.map
        (fun d => (d.name, d.slot)) =
      [("multipath/C", some 2), ("multipath/A", some 5),
       ("multipath/B", none)]) := by
  constructor
  · intro pds groups si zi
    have h := pairwise_sortByCmp mdCompare mdCompare_total mdCompare_trans
      (correlateLoop si zi groups (buildDiskMap si pds)).1
    have h' := h.imp (fun hab => (mdCompare_not_gt_iff _ _).mp hab)
    simpa [correlate] using h'
  · decide

/-- C8: standalone-disk deduplication keeps exactly one representative for
every identifier shared by more than one disk, keeps every disk without an
identifier unchanged, and on two disks sharing one identifier plus a third
with a distinct identifier the output has exactly two entries. -/
theorem c8_dedup_by_ident :
    (∀ (m : List (String × PhysicalDisk)) (i : String),
       1 < (m.map Prod.snd).countP (fun d => d.ident = some i) →
       (deduplicate_by_wwn m).countP (fun d => d.ident = some i) = 1) ∧
    (∀ m : List (String × PhysicalDisk),
       (deduplicate_by_wwn m).filter (fun d => d.ident = none) =
         (m.map Prod.snd).filter (fun d => d.ident = none)) ∧
    ((deduplicate_by_wwn
        [("da0", plainDisk "da0" (some "W1")),
         ("da1", plainDisk "da1" (some "W1")),
         ("da2", plainDisk "da2" (some "W2"))]).length = 2) := by
  refine ⟨?_, dedup_noident, by decide⟩
  intro m i hcount
  rw [dedup_countP m i, if_pos]
  have hpos : 0 < (m.map Prod.snd).countP (fun d => d.ident = some i) := by
    omega
  obtain ⟨d, hd, hdi⟩ := List.countP_pos_iff.mp hpos
  obtain ⟨kv, hkv, hkvd⟩ := List.mem_map.mp hd
  exact ⟨kv, hkv, by rw [hkvd]; exact of_decide_eq_true hdi⟩

/-- C8 witness: with two disks sharing identifier W1 and one with W2, the
identifier W1 is shared by more than one disk and the output carries exactly
one disk with it. -/
theorem c8_dedup_by_ident_witness :
    (deduplicate_by_wwn
        [("da0", plainDisk "da0" (some "W1")),
         ("da1", plainDisk "da1" (some "W1")),
         ("da2", plainDisk "da2" (some "W2"))]).countP
      (fun d => d.ident = some "W1") = 1 :=
  c8_dedup_by_ident.1
    [("da0", plainDisk "da0" (some "W1")),
     ("da1", plainDisk "da1" (some "W1")),
     ("da2", plainDisk "da2" (some "W2"))] "W1" (by decide)

/-- C9: slot assignments are inserted first-wins across enclosures — any
device name already bound keeps its binding when further enclosures are
scanned — and scanning two enclosures that both report `da3` at element 7
yields exactly one slot-7 entry for `da3`, attributed to the first-scanned
enclosure. -/
theorem c9_first_wins :
    (∀ (encs₁ encs₂ : List (String × Except String (List SesElement)))
       (n : String),
       (alLookup (sesCollect encs₁) n).isSome →
       alLookup (sesCollect (encs₁ ++ encs₂)) n =
         alLookup (sesCollect encs₁) n) ∧
    (sesCollect [("/dev/ses0", Except.ok [elemDa3]),
                 ("/dev/ses1", Except.ok [elemDa3])] =
      [("da3", { slot := 7, device_name := "da3", enclosure := "ses0" })]) := by
  constructor
  · intro encs₁ encs₂ n h
    unfold sesCollect
    rw [List.foldl_append]
    exact sesFold_preserve encs₂ _ n h
  · decide

/-- C9 witness: with `da3` bound after scanning the first enclosure, scanning
a second enclosure that also reports `da3` leaves the binding unchanged. -/
theorem c9_first_wins_witness :
    alLookup (sesCollect
        ([("/dev/ses0", Except.ok [elemDa3])] ++
         [("/dev/ses1", Except.ok [elemDa3])])) "da3" =
      alLookup (sesCollect [("/dev/ses0", Except.ok [elemDa3])]) "da3" :=
  c9_first_wins.1 [("/dev/ses0", Except.ok [elemDa3])]
    [("/dev/ses1", Except.ok [elemDa3])] "da3" (by decide)

/-- C10: after every call to `update_topology`, the key set of the per-drive
busy-percentage history map is exactly the set of names of the multipath
devices passed in. -/
theorem c10_history_keys (st : AppState) (mds : List MultipathDevice)
    (sds : List PhysicalDisk) (now : Nat) (n : String) :
    (alLookup (update_topology st mds sds now).drive_busy_history n).isSome ↔
      n ∈ mds.map (fun d => d.name) := by
  have hdbh : (update_topology st mds sds now).drive_busy_history =
      (mds.foldl (drive_history_step st.history_size) st.drive_busy_history).filter
        (fun kv => mds.any (fun d => d.name = kv.1)) := by
    simp [update_topology]
  rw [hdbh]
  rw [alLookup_filter_key (fun k => mds.any (fun d => d.name = k))]
  by_cases hmem : n ∈ mds.map (fun d => d.name)
  · have hany : (mds.any (fun d => d.name = n)) = true := by
      rw [List.any_eq_true]
      obtain ⟨d, hd, hdn⟩ := List.mem_map.mp hmem
      exact ⟨d, hd, by simp [hdn]⟩
    rw [if_pos hany]
    rw [dbhFold_isSome]
    simp [hmem]
  · have hany : ¬ ((mds.any (fun d => d.name = n)) = true) := by
      rw [List.any_eq_true]
      rintro ⟨d, hd, hdn⟩
      exact hmem (List.mem_map.mpr ⟨d, hd, of_decide_eq_true hdn⟩)
    rw [if_neg hany]
    simp [hmem]

/-- C6: a redundant group none of whose declared member paths resolve
against the current physical-disk set still yields a `MultipathDevice` in
`correlate`'s output, carrying default (zeroed) statistics. -/
theorem c6_unresolved_group_emitted (pds : List PhysicalDisk)
    (groups : List (String × MultipathInfo))
    (si : List (String × SesSlotInfo)) (zi : List (String × ZfsDriveInfo))
    (n : String) (info : MultipathInfo)
    (hmem : (n, info) ∈ groups)
    (hnores : ∀ p ∈ info.paths, ∀ d ∈ pds, d.device_name ≠ p.device_name) :
    ∃ md ∈ (correlate pds groups si zi).1,
      md.name = n ∧ md.statistics = default := by
  have hnone : ∀ p ∈ info.paths,
      alLookup (buildDiskMap si pds) p.device_name = none := fun p hp =>
    buildDiskMap_none si pds p.device_name (fun d hd => hnores p hp d hd)
  obtain ⟨md, hmd, hprops⟩ :=
    correlateLoop_emits si zi groups (buildDiskMap si pds) n info hmem hnone
  refine ⟨md, ?_, hprops⟩
  have hc : (correlate pds groups si zi).1 =
      sortByCmp mdCompare (correlateLoop si zi groups (buildDiskMap si pds)).1 := by
    simp [correlate]
  rw [hc, mem_sortByCmp]
  exact hmd

/-- C6 witness: the group `multipath/X` whose only member `da9` resolves
against no disk still appears in the output with default statistics. -/
theorem c6_unresolved_group_emitted_witness :
    ∃ md ∈ (correlate [] [("multipath/X", ghostInfo)] [] []).1,
      md.name = "multipath/X" ∧ md.statistics = default :=
  c6_unresolved_group_emitted [] [("multipath/X", ghostInfo)] [] []
    "multipath/X" ghostInfo (by decide) (by decide)

/-- C4 counterexample: the device `da0` (a name matching the physical-disk
naming convention) at rank 2, present in both snapshots, is dropped by the
per-device filter although the claim's keep-condition holds for it. -/
theorem c4_keep_filter_cex :
    claimKeepCond "da0" (some 2) = true ∧
    iterPair snap30d snap20d = [(⟨0, []⟩, ⟨0, []⟩)] ∧
    treeDa0Rank2 0 = some { name := some "da0", rank := some 2 } ∧
    compute_statistics treeDa0Rank2 statZero ⟨some snap20d⟩ snap30d = [] := by
  refine ⟨by decide, by decide, by decide, by decide⟩

/-- C4 (amended): a device present in both snapshots whose GEOM node carries
name `n` and rank `g.rank` is kept by the per-device filter if and only if
`n` passes `is_physical_disk` (`da*`/`nda*`/`multipath/*`) and its rank,
when known, is at most 1 unless `n` is a `multipath/` name. -/
theorem c4_keep_filter (tree : Nat → Option GIdent)
    (statCompute : DevStat → DevStat → Int → DiskStatistics)
    (prev cur : GeomSnapshot)
    (hpos : 0 < cur.timestamp - prev.timestamp)
    (hnodup : ((iterPair cur prev).filterMap
        (fun cp => (tree cp.1.id).bind (fun g => g.name))).Nodup)
    (cp : DevStat × DevStat) (hcp : cp ∈ iterPair cur prev)
    (g : GIdent) (hg : tree cp.1.id = some g)
    (n : String) (hn : g.name = some n) :
    (∃ d ∈ compute_statistics tree statCompute ⟨some prev⟩ cur,
        d.device_name = n) ↔
      (is_physical_disk n = true ∧
        (g.rank = none ∨ (∃ r, g.rank = some r ∧ r ≤ 1) ∨
         strStarts n "multipath/" = true)) := by
  have hne : ¬ (cur.timestamp - prev.timestamp ≤ 0) := not_le.mpr hpos
  rw [← keepDevice_iff]
  unfold compute_statistics
  simp only [if_neg hne]
  constructor
  · rintro ⟨d, hd, hdn⟩
    obtain ⟨cp', hcp', hf⟩ := List.mem_filterMap.mp hd
    rcases hx : tree cp'.1.id with _ | g'
    · simp only [hx] at hf
      exact Option.noConfusion hf
    · simp only [hx] at hf
      rcases hy : g'.name with _ | n'
      · simp only [hy] at hf
        exact Option.noConfusion hf
      · simp only [hy] at hf
        by_cases hk : keepDevice n' g'.rank
        · rw [if_pos hk] at hf
          have hdval := Option.some.inj hf
          have hnn : n' = n := by
            rw [← hdval] at hdn
            simpa using hdn
          subst hnn
          have hcpeq : cp' = cp := by
            apply filterMap_nodup_inj
              (fun cp => (tree cp.1.id).bind (fun g => g.name))
              (iterPair cur prev) hnodup cp' hcp' cp hcp n'
            · simp [hx, hy]
            · simp [hg, hn]
          rw [hcpeq] at hx
          rw [hx] at hg
          have hgg : g' = g := by injection hg
          rw [← hgg]
          exact hk
        · simp only [if_neg hk] at hf
          exact Option.noConfusion hf
  · intro hk
    refine ⟨{ device_name := n, rank := g.rank, ident := none,
              multipath_parent := none, slot := none, enclosure := none,
              statistics := statCompute cp.1 cp.2 (cur.timestamp - prev.timestamp),
              path_state := PathState.Unknown }, ?_, rfl⟩
    exact List.mem_filterMap.mpr ⟨cp, hcp, by simp [hg, hn, hk]⟩

/-- C4 witness: the rank-1 device `da0`, present in both snapshots, is kept:
both sides of the amended equivalence hold at this input. -/
theorem c4_keep_filter_witness :
    ∃ d ∈ compute_statistics treeDa0Rank1 statZero ⟨some snap20d⟩ snap30d,
      d.device_name = "da0" :=
  (c4_keep_filter treeDa0Rank1 statZero snap20d snap30d (by decide) (by decide)
      (⟨0, []⟩, ⟨0, []⟩) (by decide) { name := some "da0", rank := some 1 }
      (by decide) "da0" (by decide)).mpr
    ⟨by decide, Or.inr (Or.inl ⟨1, rfl, by decide⟩)⟩

/-- C1: for every redundant group processed with distinct member names, a
name-consistent disk map and at most one active member, the emitted
`MultipathDevice`'s aggregate statistics equal the active path's statistics
if an active path resolved, else the first resolved path's statistics, else
the default statistics; and in the concrete scenario with members `da0`
(active, read IOPS 120) and `da1` (passive, zero), the aggregate statistics
equal `da0`'s and the active path is `da0`. -/
theorem c1_aggregate_stats :
    (∀ (si : List (String × SesSlotInfo)) (zi : List (String × ZfsDriveInfo))
       (dm : List (String × PhysicalDisk)) (mp_name : String)
       (info : MultipathInfo),
       (info.paths.map (fun p => p.device_name)).Nodup →
       (∀ kv ∈ dm, kv.2.device_name = kv.1) →
       (∀ p ∈ info.paths, ∀ q ∈ info.paths,
          p.is_active = true → q.is_active = true → p = q) →
       (processGroup si zi dm mp_name info).1.statistics =
         (match (resolvedPaths dm info.paths).find? (fun p => p.is_active) with
          | some p =>
              ((alLookup dm p.device_name).map (fun d => d.statistics)).getD default
          | none =>
              match (resolvedPaths dm info.paths).head? with
              | some p =>
                  ((alLookup dm p.device_name).map (fun d => d.statistics)).getD default
              | none => default)) ∧
    ((correlate [da0, da1] [("tank-parity", tpInfo)] [] []).1.map
        (fun d => (d.statistics, d.active_path)) = [(da0stats, some "da0")]) := by
  constructor
  · intro si zi dm mp_name info hnd hcons huniq
    have hconsR : ∀ q ∈ resolvedPaths dm info.paths,
        (getDisk dm q).device_name = q.device_name := by
      intro q hq
      have hs := resolved_lookup_isSome dm info.paths q hq
      cases hlq : alLookup dm q.device_name with
      | none => rw [hlq] at hs; cases hs
      | some dq =>
          have := hcons (q.device_name, dq) (alLookup_mem dm q.device_name dq hlq)
          simpa [getDisk, hlq] using this
    have huniqR : ∀ p ∈ resolvedPaths dm info.paths,
        ∀ q ∈ resolvedPaths dm info.paths,
        p.is_active = true → q.is_active = true → p = q := by
      intro p hp q hq hpa hqa
      exact huniq p (resolved_sub dm info.paths p hp)
        q (resolved_sub dm info.paths q hq) hpa hqa
    have hactive : activeOf (resolvedPaths dm info.paths) none =
        ((resolvedPaths dm info.paths).find? (fun p => p.is_active)).map
          (fun p => p.device_name) :=
      activeOf_unique (resolvedPaths dm info.paths) huniqR
    unfold processGroup
    rw [foldPaths_eq info.paths dm [] none hnd]
    simp only [List.nil_append]
    cases hfind : (resolvedPaths dm info.paths).find? (fun p => p.is_active) with
    | some p =>
        have hpmem : p ∈ resolvedPaths dm info.paths :=
          List.mem_of_find?_eq_some hfind
        have hRne : resolvedPaths dm info.paths ≠ [] := by
          intro h
          rw [h] at hpmem
          simp at hpmem
        have hmapne : ¬ ((resolvedPaths dm info.paths).map (getDisk dm) = []) := by
          simp [hRne]
        rw [hactive] at *
        simp only [hfind, Option.map_some']
        rw [if_neg hmapne]
        rw [find?_map_name dm (resolvedPaths dm info.paths) p hpmem hconsR]
        have hs := resolved_lookup_isSome dm info.paths p hpmem
        cases hlq : alLookup dm p.device_name with
        | none => rw [hlq] at hs; cases hs
        | some dq => simp [getDisk, hlq]
    | none =>
        rw [hactive] at *
        simp only [hfind, Option.map_none']
        cases hR : resolvedPaths dm info.paths with
        | nil => simp
        | cons r rs =>
            have hrmem : r ∈ resolvedPaths dm info.paths := by
              rw [hR]; exact List.mem_cons_self r rs
            have hs := resolved_lookup_isSome dm info.paths r hrmem
            have hmapne : ¬ (((r :: rs).map (getDisk dm)) = []) := by simp
            rw [if_neg hmapne]
            simp only [List.map_cons, List.head?_cons]
            cases hlq : alLookup dm r.device_name with
            | none => rw [hlq] at hs; cases hs
            | some dq => simp [getDisk, hlq]
  · decide

/-- C1 witness: for the group `tank-parity` over the disk map holding `da0`
and `da1`, the emitted aggregate statistics are `da0`'s. -/
theorem c1_aggregate_stats_witness :
    (processGroup [] [] [("da0", da0), ("da1", da1)] "tank-parity"
        tpInfo).1.statistics = da0stats := by
  have h := c1_aggregate_stats.1 [] [] [("da0", da0), ("da1", da1)]
    "tank-parity" tpInfo (by decide) (by decide) (by decide)
  rw [h]
  decide

end Sanview
